import Mathlib

/-!
# Verification of the captive ledger backend and ingestion processor runner

Shallow embedding of the ledger-ingestion core:
* `src/ingest/ledgerbackend/captive_core_backend.go` (`CaptiveHcnetCore`:
  `runFromParams`, `IsPrepared`, `PrepareRange`, `GetLedger`,
  `GetLatestLedgerSequence`, `Close`, `sendLedgerMeta`);
* `src/services/aurora/internal/ingest/processors/claimable_balances_processor.go`
  (the `ProcessorRunner` part: `checkIfProtocolVersionSupported`,
  `validateBucketList`, `RunHistoryArchiveIngestion`);
* `src/unnamed/part_005` (`OffersProcessor.Commit`, `offerCompactionWindow`).

Machine integers: all the Go `uint32` arithmetic reached by the embedded
functions stays far from `2^32` and never underflows on the reached branches
(every subtraction is guarded by a comparison in the source), so sequences are
modelled as `Nat`.

External collaborators (history archive, hcnet-core runner subprocess, the
read pipe, the SQL sink) are modelled as explicit environment records of
result-valued functions, exactly at the granularity the Go code consumes them.
-/

/-- A ledger header, with the fields of `xdr.LedgerHeader` that the embedded
code reads: `LedgerSeq`, `LedgerVersion`, `PreviousLedgerHash`,
`BucketListHash`.  Hashes are byte lists. -/
structure LedgerHeader where
  ledgerSeq : Nat
  ledgerVersion : Nat
  previousLedgerHash : List Nat
  bucketListHash : List Nat
deriving DecidableEq, Repr

/-- Embedding of `xdr.LedgerCloseMeta`, restricted to what the embedded code reads
(`V0.LedgerHeader.Header`). -/
structure LedgerCloseMeta where
  header : LedgerHeader
deriving DecidableEq, Repr

/-- Accessor `LedgerCloseMeta.LedgerSequence()`. -/
def LedgerCloseMeta.ledgerSequence (m : LedgerCloseMeta) : Nat :=
  m.header.ledgerSeq

/-- One nibble to a lowercase hex character, as Go's `hex.EncodeToString`. -/
def hexDigit (n : Nat) : Char :=
  if n < 10 then Char.ofNat (48 + n) else Char.ofNat (87 + n)

/-- One byte to two lowercase hex characters. -/
def hexEncodeByte (b : Nat) : List Char :=
  [hexDigit (b / 16), hexDigit (b % 16)]

/-- Go's `hex.EncodeToString` over a byte slice. -/
def hexEncodeToString (bs : List Nat) : String :=
  String.mk ((bs.map hexEncodeByte).flatten)

/-- Modelled from the spec: `historyarchive.IsCheckpoint` is not under `src/`
(only its callers and tests are).  Per the spec, "Checkpoint ledgers satisfy
`(seq + 1) mod 64 == 0`, i.e. 63, 127, 191, …". -/
def IsCheckpoint (i : Nat) : Bool :=
  (i + 1) % 64 == 0

/-- Modelled from the spec: `historyarchive.PrevCheckpoint` is not under
`src/`.  Per the spec table it aligns a ledger to the previous checkpoint:
the greatest checkpoint ledger `≤ i` (for `i` at or above the first
checkpoint 63; below it there is no checkpoint and 63 is returned — the
embedded code only calls it with `i > 63`).  Validated against the in-repo
test vectors of `TestCaptiveRunFromParams` (`src/unnamed/part_012`). -/
def PrevCheckpoint (i : Nat) : Nat :=
  if i < 64 then 63 else ((i + 1) / 64) * 64 - 1

/-- Modelled from the spec: the constant `ledgersPerCheckpoint` is declared
outside `src/`; the spec fixes 64 ledgers per checkpoint. -/
def ledgersPerCheckpoint : Nat := 64

/-- Function `roundDownToFirstReplayAfterCheckpointStart` from
`captive_core_backend.go`. -/
def roundDownToFirstReplayAfterCheckpointStart (ledger : Nat) : Nat :=
  let v := (ledger / ledgersPerCheckpoint) * ledgersPerCheckpoint
  if v = 0 then 2 else v

/-- Function `runFromParams` from `captive_core_backend.go`: given the requested first
ledger of an unbounded range, compute the `--start-at-ledger` value, the
`--start-at-hash` value (hex of the previous-ledger hash of the archive header
at `runFrom + 1`) and the first ledger the subprocess will stream.
The archive's `GetLedgerHeader` is the function argument (the `.Header` of the
returned `xdr.LedgerHeaderHistoryEntry`). -/
def runFromParams (getLedgerHeader : Nat → Except String LedgerHeader)
    (fromSeq : Nat) : Except String (Nat × String × Nat) :=
  if fromSeq = 1 then
    .error "CaptiveCore is unable to start from ledger 1, start from ledger 2"
  else
    -- the Go code mutates `from` and `nextLedger` in the two branches
    let p : Nat × Nat :=
      if fromSeq ≤ 63 then
        -- start from 3, stream from 2 (first-checkpoint special case)
        (3, 2)
      else
        let f := if IsCheckpoint fromSeq then fromSeq else PrevCheckpoint fromSeq
        let nl := f - 63
        (f, if nl < 2 then 2 else nl)
    let runFrom := p.1 - 1
    match getLedgerHeader p.1 with
    | .error e =>
        .error ("error trying to read ledger header " ++ toString p.1 ++
          " from HAS: " ++ e)
    | .ok hdr =>
        .ok (runFrom, hexEncodeToString hdr.previousLedgerHash, p.2)

/-- One result sent by the read-ahead producer (`metaResult` in the source):
either a decoded `LedgerCloseMeta` or a read error.  The producer always sends
exactly one of the two (the Go struct holds a nullable pointer and an error). -/
inductive MetaResult where
  | item (m : LedgerCloseMeta)
  | failure (e : String)
deriving DecidableEq, Repr

/-- The subprocess runner as the backend sees it after a session is open: the
only operation the embedded code performs on it is `close()`, whose outcome is
recorded here (`hcnetCoreRunnerInterface.close`). -/
structure CoreRunner where
  closeErr : Option String
deriving DecidableEq, Repr

/-- The state of a `CaptiveHcnetCore` backend.

* `metaC` is the read-ahead buffer together with everything the producer
  goroutine will still deliver on it: in this sequential model the channel
  holds the whole future stream, and the capacity-2 backpressure is a timing
  property with no effect on the values read.
* `shutdown` records whether the shutdown channel of a session exists
  (`c.shutdown != nil`).
* `runner` is `hcnetCoreRunner` (`none` when `nil`). -/
structure CaptiveHcnetCore where
  nextLedger : Nat
  lastLedger : Option Nat
  cachedMeta : Option LedgerCloseMeta
  blocking : Bool
  metaC : List MetaResult
  shutdown : Bool
  runner : Option CoreRunner
  configPath : String
deriving DecidableEq, Repr

/-- Predicate `isClosed` from the source: a backend is closed iff `nextLedger == 0`. -/
def isClosed (c : CaptiveHcnetCore) : Bool :=
  c.nextLedger == 0

/-- Method `Close` from the source.  It resets `nextLedger`/`lastLedger`, tears down
the session channels when they exist, and closes the runner subprocess,
returning its wrapped error if any.  (Closing the Go channels only stops the
producer; it does not erase buffered items, so `metaC` is left as is — the
closed backend never reads it again.) -/
def Close (c : CaptiveHcnetCore) : Option String × CaptiveHcnetCore :=
  let c1 : CaptiveHcnetCore := { c with nextLedger := 0, lastLedger := none }
  let c2 : CaptiveHcnetCore :=
    if c1.shutdown then { c1 with shutdown := false } else c1
  match c2.runner with
  | none => (none, c2)
  | some r =>
      (r.closeErr.map (fun e => "error closing hcnet-core subprocess: " ++ e),
       { c2 with runner := none })

/-- The result of `GetLedger` — Go returns `(bool, LedgerCloseMeta, error)`:
`found m` is `(true, m, nil)`, `notFound` is `(false, zero, nil)` (non-blocking
mode, empty buffer), `failure e` is `(false, zero, e)`.  `blocked` marks the
case where the Go code would wait on the channel forever because the producer
sends nothing more (reachable only when the model's finite stream is
exhausted in blocking mode). -/
inductive GetLedgerResult where
  | found (m : LedgerCloseMeta)
  | notFound
  | failure (e : String)
  | blocked
deriving DecidableEq, Repr

/-- One reception step plus the rest of the receive loop of `GetLedger` (the
`loop:` block in the source), recursing structurally on the channel content.
The channel is threaded as the explicit `buf` argument; the backend state `c`
mirrors it in `metaC` (each pull updates both in lockstep, and the wrapper
`getLedgerLoop` starts from `c.metaC` itself).  Pulling a read error or a
ledger whose sequence differs from `nextLedger` closes the backend and
surfaces an error; otherwise `nextLedger` is incremented and, once the
requested sequence is reached, the meta is cached and returned — closing the
session first if it was the last ledger of a bounded range. -/
def getLedgerRecv (sequence : Nat) :
    List MetaResult → CaptiveHcnetCore → GetLedgerResult × CaptiveHcnetCore
  | [], c =>
      -- `!c.blocking && len(c.metaC) == 0` returns `(false, _, nil)`;
      -- in blocking mode the Go code would wait on the channel
      if c.blocking then (.blocked, c) else (.notFound, c)
  | .failure e :: rest, c =>
      (.failure e, (Close { c with metaC := rest }).2)
  | .item m :: rest, c =>
      if m.header.ledgerSeq = c.nextLedger then
        if m.header.ledgerSeq = sequence then
          let c3 : CaptiveHcnetCore :=
            { c with metaC := rest, nextLedger := c.nextLedger + 1,
                     cachedMeta := some m }
          if c3.lastLedger = some m.header.ledgerSeq then
            match Close c3 with
            | (some e, c4) => (.failure ("error closing session: " ++ e), c4)
            | (none, c4) => (.found m, c4)
          else (.found m, c3)
        else
          getLedgerRecv sequence rest
            { c with metaC := rest, nextLedger := c.nextLedger + 1 }
      else
        (.failure ("unexpected ledger (expected=" ++ toString c.nextLedger ++
            " actual=" ++ toString m.header.ledgerSeq ++ ")"),
         (Close { c with metaC := rest }).2)

/-- The receive loop of `GetLedger`, started on the backend's own read-ahead
channel. -/
def getLedgerLoop (sequence : Nat) (c : CaptiveHcnetCore) :
    GetLedgerResult × CaptiveHcnetCore :=
  getLedgerRecv sequence c.metaC c

/-- Body of `GetLedger` after the cached-meta check: the closed / behind-stream guards
followed by the receive loop. -/
def getLedgerMain (c : CaptiveHcnetCore) (sequence : Nat) :
    GetLedgerResult × CaptiveHcnetCore :=
  if isClosed c then
    (.failure "session is closed, call PrepareRange first", c)
  else if sequence < c.nextLedger then
    (.failure ("requested ledger " ++ toString sequence ++
      " is behind the captive core stream (expected=" ++
      toString c.nextLedger ++ ")"), c)
  else getLedgerLoop sequence c

/-- Method `GetLedger` from the source.  A sequence equal to the cached meta's
sequence is served from the cache before any other check. -/
def GetLedger (c : CaptiveHcnetCore) (sequence : Nat) :
    GetLedgerResult × CaptiveHcnetCore :=
  match c.cachedMeta with
  | some m =>
      if sequence = m.header.ledgerSeq then (.found m, c)
      else getLedgerMain c sequence
  | none => getLedgerMain c sequence

/-- Method `GetLatestLedgerSequence` from the source. -/
def GetLatestLedgerSequence (c : CaptiveHcnetCore) : Except String Nat :=
  if isClosed c then
    .error "hcnet-core must be opened to return latest available sequence"
  else
    match c.lastLedger with
    | none => .ok (c.nextLedger - 1 + c.metaC.length)
    | some l => .ok l

/-- Modelled from the spec: the `Range` type of the `ledgerbackend` package is
declared outside `src/`; per the spec a range is tagged bounded (`[from, to]`)
or unbounded (`[from, ∞)`).  Field names follow the source (`from` is a Lean
keyword, hence `fromSeq`/`toSeq`). -/
structure LedgerRange where
  fromSeq : Nat
  toSeq : Nat
  bounded : Bool
deriving DecidableEq, Repr

/-- Constructor `BoundedRange(from, to)`. -/
def BoundedRange (f f2 : Nat) : LedgerRange := ⟨f, f2, true⟩

/-- Constructor `UnboundedRange(from)` (the `to` field stays zero). -/
def UnboundedRange (f : Nat) : LedgerRange := ⟨f, 0, false⟩

/-- Method `IsPrepared` from the source (the error it returns is always `nil`, so the
model keeps only the boolean). -/
def IsPrepared (c : CaptiveHcnetCore) (r : LedgerRange) : Bool :=
  if c.nextLedger = 0 then false
  else
    match c.lastLedger with
    | none => decide (c.nextLedger ≤ r.fromSeq)
    | some last =>
        -- from now on the current range is bounded
        if r.bounded then
          decide (c.nextLedger ≤ r.fromSeq) && decide (c.nextLedger ≤ last)
        else false

/-- The environment of a backend session: the history archive and the
behaviour of the runner subprocess that a `PrepareRange` would create.
`pipe` is the sequence of `readLedgerMetaFromPipe` outcomes (a `failure` item
already carries the process-exit rewording done in `sendLedgerMeta`, and
nothing follows a failed read because the producer returns). -/
structure CaptiveEnv where
  rootHASLedger : Except String Nat
  getLedgerHeader : Nat → Except String LedgerHeader
  catchupErr : Nat → Nat → Option String
  runFromErr : Nat → String → Option String
  pipe : List MetaResult
  runnerCloseErr : Option String

/-- Producer `sendLedgerMeta` from the source, as the list of results the producer
delivers on `metaC` before returning: it forwards pipe reads one by one, stops
after forwarding a read error, and — when `untilSequence ≠ 0` (bounded mode) —
stops after forwarding the first ledger with sequence `≥ untilSequence`. -/
def sendLedgerMeta (untilSequence : Nat) : List MetaResult → List MetaResult
  | [] => []
  | .failure e :: _ => [.failure e]
  | .item m :: rest =>
      if untilSequence ≠ 0 ∧ untilSequence ≤ m.header.ledgerSeq then [.item m]
      else .item m :: sendLedgerMeta untilSequence rest

/-- Outcome of a `PrepareRange` (or of one of its open helpers): success with
the new backend state, an error string, or blocking forever (possible only
when the online fast-forward outruns the model's finite pipe). -/
inductive PrepOut where
  | success (c : CaptiveHcnetCore)
  | failure (e : String)
  | blocked
deriving DecidableEq, Repr

/-- Method `openOfflineReplaySubprocess` from the source.  The runner factory itself
never fails in the model (its only failure mode is an I/O error creating a
temp directory); `catchup` may, via `env.catchupErr`. -/
def openOfflineReplaySubprocess (env : CaptiveEnv) (c : CaptiveHcnetCore)
    (fromSeq toSeq : Nat) : PrepOut :=
  match Close c with
  | (some e, _) => .failure ("error closing existing session: " ++ e)
  | (none, c1) =>
    match env.rootHASLedger with
    | .error e =>
        .failure ("error getting latest checkpoint sequence: error getting root HAS: " ++ e)
    | .ok latestCheckpointSequence =>
      if latestCheckpointSequence < fromSeq then
        .failure ("sequence: " ++ toString fromSeq ++
          " is greater than max available in history archives: " ++
          toString latestCheckpointSequence)
      else
        let to2 := if latestCheckpointSequence < toSeq
                   then latestCheckpointSequence else toSeq
        match env.catchupErr fromSeq to2 with
        | some e => .failure ("error running hcnet-core: " ++ e)
        | none =>
            .success { c1 with
              nextLedger := roundDownToFirstReplayAfterCheckpointStart fromSeq,
              lastLedger := some to2,
              blocking := true,
              metaC := sendLedgerMeta to2 env.pipe,
              shutdown := true,
              runner := some { closeErr := env.runnerCloseErr } }

/-- Method `openOnlineReplaySubprocess` from the source: reuse a live unbounded
session when possible, otherwise close, validate the distance to the latest
checkpoint, require a config path, compute `runFromParams`, start the runner
and optionally fast-forward (a temporarily blocking `GetLedger`) up to the
requested ledger. -/
def openOnlineReplaySubprocess (env : CaptiveEnv) (c : CaptiveHcnetCore)
    (fromSeq : Nat) : PrepOut :=
  if c.lastLedger = none ∧ c.nextLedger ≠ 0 ∧ c.nextLedger ≤ fromSeq then
    -- existing session works for this request; GetLedger will fast-forward
    .success c
  else
    match Close c with
    | (some e, _) => .failure ("error closing existing session: " ++ e)
    | (none, c1) =>
      match env.rootHASLedger with
      | .error e =>
          .failure ("error getting latest checkpoint sequence: error getting root HAS: " ++ e)
      | .ok latestCheckpointSequence =>
        if latestCheckpointSequence + 2 * 64 < fromSeq then
          .failure ("trying to start online mode too far (latest checkpoint=" ++
            toString latestCheckpointSequence ++
            "), only two checkpoints in the future allowed")
        else if c1.configPath = "" then
          .failure "hcnet-core config file path cannot be empty in an online mode"
        else
          match runFromParams env.getLedgerHeader fromSeq with
          | .error e =>
              .failure ("error calculating ledger and hash for stelar-core run: " ++ e)
          | .ok (runFrom, ledgerHash, nextLedger) =>
            match env.runFromErr runFrom ledgerHash with
            | some e => .failure ("error running hcnet-core: " ++ e)
            | none =>
              let c2 : CaptiveHcnetCore := { c1 with
                nextLedger := nextLedger,
                lastLedger := none,
                blocking := false,
                metaC := sendLedgerMeta 0 env.pipe,
                shutdown := true,
                runner := some { closeErr := env.runnerCloseErr } }
              if c2.nextLedger < fromSeq then
                -- make GetLedger blocking temporarily and fast-forward
                match GetLedger { c2 with blocking := true } fromSeq with
                | (.failure e, _) =>
                    .failure ("Error fast-forwarding to " ++ toString fromSeq ++
                      ": " ++ e)
                | (.blocked, _) => .blocked
                | (_, c3) => .success { c3 with blocking := false }
              else .success c2

/-- Method `PrepareRange` from the source.  The boolean is `false` iff the call
short-circuited at the `IsPrepared` check (returning success with the state
untouched); when it is `true` the open helper ran (closing any current session
and spawning a subprocess on its success paths).  The trailing wait loop of
the Go function only synchronizes with the producer goroutine — it blocks
until the read-ahead buffer is non-empty or reports a process-exit error —
and mutates no state, so it is outside this sequential model. -/
def PrepareRange (env : CaptiveEnv) (c : CaptiveHcnetCore) (r : LedgerRange) :
    PrepOut × Bool :=
  if IsPrepared c r then (.success c, false)
  else
    let res := if r.bounded then openOfflineReplaySubprocess env c r.fromSeq r.toSeq
               else openOnlineReplaySubprocess env c r.fromSeq
    (match res with
     | .failure e => .failure ("opening subprocess: " ++ e)
     | other => other, true)

/-- The kind of a ledger entry (`xdr.LedgerEntryType`, restricted to the
entity kinds the processors project). -/
inductive EntryKind where
  | account | accountData | offer | trustline | claimableBalance | signer
  | assetStat
deriving DecidableEq, Repr

/-- An `io.Change`: a `(kind, pre, post)` transition of one ledger entry.  The
entry payloads are opaque to the embedded runner code, which only moves
changes around, so they are identifiers here. -/
structure Change where
  kind : EntryKind
  pre : Option Nat
  post : Option Nat
deriving DecidableEq, Repr

/-- Constant `MaxSupportedProtocolVersion`, declared outside `src/`.  Modelled from the
spec, whose scenario 8 fixes the build's maximum supported protocol version
at 15 (the value is irrelevant to the proved properties, which only use the
comparison against it). -/
def MaxSupportedProtocolVersion : Nat := 15

/-- The collaborators of `ProcessorRunner` as `RunHistoryArchiveIngestion`
consumes them: the ledger backend's `GetLedger` (`(exists, meta)` or error),
the history adapter's `BucketListHash` and `GetState` (the archive snapshot as
its change stream), and the synthetic genesis change stream of
`io.GenesisLedgerStateReader`. -/
structure IngestEnv where
  backendGetLedger : Nat → Except String (Bool × LedgerCloseMeta)
  bucketListHash : Nat → Except String (List Nat)
  getState : Nat → Except String (List Change)
  genesisChanges : List Change

/-- Method `checkIfProtocolVersionSupported` from the source
(`claimable_balances_processor.go` lines 241-263). -/
def checkIfProtocolVersionSupported (env : IngestEnv) (ledgerSequence : Nat) :
    Except String Unit :=
  match env.backendGetLedger ledgerSequence with
  | .error e => .error ("Error getting ledger: " ++ e)
  | .ok (ex, ledgerCloseMeta) =>
    if !ex then
      .error "cannot check if protocol version supported: ledger does not exist"
    else
      let ledgerVersion := ledgerCloseMeta.header.ledgerVersion
      if MaxSupportedProtocolVersion < ledgerVersion then
        .error ("This Aurora version does not support protocol version " ++
          toString ledgerVersion ++
          ". The latest supported protocol version is " ++
          toString MaxSupportedProtocolVersion ++
          ". Please upgrade to the latest Aurora version.")
      else .ok ()

/-- Method `validateBucketList` from the source: the bucket-list hash published by
the history archive for the checkpoint must be bytewise equal to the one in
the backend's ledger header (`bytes.Equal`). -/
def validateBucketList (env : IngestEnv) (ledgerSequence : Nat) :
    Except String Unit :=
  match env.bucketListHash ledgerSequence with
  | .error e => .error ("Error getting bucket list hash: " ++ e)
  | .ok historyBucketListHash =>
    match env.backendGetLedger ledgerSequence with
    | .error e => .error ("Error getting ledger: " ++ e)
    | .ok (ex, ledgerCloseMeta) =>
      if !ex then
        .error ("cannot validate bucket hash list. Checkpoint ledger (" ++
          toString ledgerSequence ++ ") must exist in Hcnet-Core database.")
      else
        let ledgerBucketHashList := ledgerCloseMeta.header.bucketListHash
        if historyBucketListHash ≠ ledgerBucketHashList then
          .error ("Bucket list hash of history archive and ledger header does not match: " ++
            hexEncodeToString historyBucketListHash ++ " " ++
            hexEncodeToString ledgerBucketHashList)
        else .ok ()

/-- Method `RunHistoryArchiveIngestion` from the source.  The second component is the
mutation performed on the change group: the list of changes streamed into it
(and committed) — empty whenever an error is returned, because every error
path returns before `io.StreamChanges` runs.  Checkpoint 1 uses the synthetic
genesis stream and performs neither the protocol-version check nor the
bucket-list validation. -/
def RunHistoryArchiveIngestion (env : IngestEnv) (checkpointLedger : Nat) :
    Except String Unit × List Change :=
  if checkpointLedger = 1 then
    (.ok (), env.genesisChanges)
  else
    match checkIfProtocolVersionSupported env checkpointLedger with
    | .error e =>
        (.error ("Error while checking for supported protocol version: " ++ e), [])
    | .ok () =>
      match validateBucketList env checkpointLedger with
      | .error e => (.error ("Error validating bucket list from HAS: " ++ e), [])
      | .ok () =>
        match env.getState checkpointLedger with
        | .error e => (.error ("Error creating HAS reader: " ++ e), [])
        | .ok changes => (.ok (), changes)

/-- Constant `offerCompactionWindow` from `src/unnamed/part_005`. -/
def offerCompactionWindow : Nat := 100

/-- A row of the `offers` table as compaction sees it: soft-deleted rows carry
the sequence at which they were removed in `deleted_at`. -/
structure OfferRow where
  offerID : Nat
  deletedAt : Option Nat
deriving DecidableEq, Repr

/-- Modelled from the spec: `QOffers.CompactOffers` is declared outside
`src/`.  Per the spec, compaction at a cutoff "physically delete[s] offer rows
whose `deleted_at < S − 100`", i.e. it keeps live rows and rows deleted at or
after the cutoff.  (The row count it reports is only logged by the caller.) -/
def CompactOffers (table : List OfferRow) (cutOffSequence : Nat) :
    List OfferRow :=
  table.filter (fun r =>
    match r.deletedAt with
    | none => true
    | some d => decide (cutOffSequence ≤ d))

/-- Method `OffersProcessor.Commit` from `src/unnamed/part_005`, acting on the offers
table.  `flushErr` is the outcome of `flushCache()` (the batched inserts /
updates / removes of the buffered changes, which this claim does not inspect);
on its success, compaction runs iff `sequence > offerCompactionWindow`, with
cutoff `sequence - offerCompactionWindow`.  The first component of the result
is the cutoff handed to `CompactOffers` (`none` when compaction was not
invoked). -/
def OffersCommit (flushErr : Option String) (sequence : Nat)
    (table : List OfferRow) : Except String (Option Nat × List OfferRow) :=
  match flushErr with
  | some e => .error ("error flushing cache: " ++ e)
  | none =>
    if offerCompactionWindow < sequence then
      .ok (some (sequence - offerCompactionWindow),
           CompactOffers table (sequence - offerCompactionWindow))
    else .ok (none, table)

/-! ## Helper lemmas -/

theorem Close_nextLedger (c : CaptiveHcnetCore) : (Close c).2.nextLedger = 0 := by
  unfold Close
  cases c.shutdown <;> rcases hr : c.runner with _ | r <;> simp [hr]

theorem Close_lastLedger (c : CaptiveHcnetCore) : (Close c).2.lastLedger = none := by
  unfold Close
  cases c.shutdown <;> rcases hr : c.runner with _ | r <;> simp [hr]

theorem Close_cachedMeta (c : CaptiveHcnetCore) :
    (Close c).2.cachedMeta = c.cachedMeta := by
  unfold Close
  cases c.shutdown <;> rcases hr : c.runner with _ | r <;> simp [hr]

theorem Close_isClosed (c : CaptiveHcnetCore) : isClosed (Close c).2 = true := by
  simp [isClosed, Close_nextLedger]

/-- A checkpoint ledger above the first checkpoint is at least 127. -/
theorem checkpoint_gt63_ge127 {f : Nat} (h63 : 63 < f)
    (hc : IsCheckpoint f = true) : 127 ≤ f := by
  have hm : (f + 1) % 64 = 0 := by simpa [IsCheckpoint] using hc
  obtain ⟨k, hk⟩ := Nat.dvd_of_mod_eq_zero hm
  omega

/-- What a successful pull-loop return guarantees: the returned meta carries
the requested sequence and is cached; if the requested sequence is the
session's last ledger the backend has been closed, otherwise the position
advanced to `s + 1` and the range bound is untouched. -/
theorem getLedgerRecv_found (s : Nat) :
    ∀ (buf : List MetaResult) (c c' : CaptiveHcnetCore) (m : LedgerCloseMeta),
      getLedgerRecv s buf c = (.found m, c') →
      m.header.ledgerSeq = s ∧ c'.cachedMeta = some m ∧
      (if c.lastLedger = some s
       then c'.nextLedger = 0 ∧ c'.lastLedger = none
       else c'.nextLedger = s + 1 ∧ c'.lastLedger = c.lastLedger) := by
  intro buf
  induction buf with
  | nil =>
    intro c c' m h
    cases hb : c.blocking <;> simp [getLedgerRecv, hb] at h
  | cons mr rest ih =>
    intro c c' m h
    cases mr with
    | failure e => simp [getLedgerRecv] at h
    | item m0 =>
      rw [getLedgerRecv] at h
      by_cases h1 : m0.header.ledgerSeq = c.nextLedger
      · rw [if_pos h1] at h
        by_cases h2 : m0.header.ledgerSeq = s
        · rw [if_pos h2] at h
          simp only [] at h
          by_cases h3 : c.lastLedger = some m0.header.ledgerSeq
          · rw [if_pos h3] at h
            set c3 : CaptiveHcnetCore :=
              { c with metaC := rest, nextLedger := c.nextLedger + 1,
                       cachedMeta := some m0 } with hc3
            rcases hc : Close c3 with ⟨o, c4⟩
            rw [hc] at h
            rcases o with _ | e
            · simp only [GetLedgerResult.found.injEq, Prod.mk.injEq] at h
              obtain ⟨hm, hc4⟩ := h
              subst hm hc4
              have h4 : c4 = (Close c3).2 := by rw [hc]
              refine ⟨h2, ?_, ?_⟩
              · rw [h4, Close_cachedMeta]
              · rw [h2] at h3
                simp only [h3, if_pos]
                rw [h4]
                exact ⟨Close_nextLedger _, Close_lastLedger _⟩
            · simp at h
          · rw [if_neg h3] at h
            simp only [GetLedgerResult.found.injEq, Prod.mk.injEq] at h
            obtain ⟨hm, hc4⟩ := h
            subst hm
            have hml : ¬ c.lastLedger = some s := by rw [← h2]; exact h3
            refine ⟨h2, ?_, ?_⟩
            · rw [← hc4]
            · simp only [hml, if_neg]
              rw [← hc4]
              simp [← h2, ← h1]
        · rw [if_neg h2] at h
          have hrec := ih _ c' m h
          simpa using hrec
      · rw [if_neg h1] at h
        simp at h

/-- Lemma `getLedgerRecv_found` lifted over the closed / behind-stream guards. -/
theorem getLedgerMain_found (c c' : CaptiveHcnetCore) (s : Nat)
    (m : LedgerCloseMeta) (h : getLedgerMain c s = (.found m, c')) :
    m.header.ledgerSeq = s ∧ c'.cachedMeta = some m ∧
    (if c.lastLedger = some s
     then c'.nextLedger = 0 ∧ c'.lastLedger = none
     else c'.nextLedger = s + 1 ∧ c'.lastLedger = c.lastLedger) := by
  unfold getLedgerMain at h
  by_cases h1 : isClosed c
  · simp [h1] at h
  · rw [if_neg h1] at h
    by_cases h2 : s < c.nextLedger
    · simp [h2] at h
    · rw [if_neg h2] at h
      exact getLedgerRecv_found s c.metaC c c' m h

/-! ## C1 — `runFromParams` startup alignment -/

/-- C1.  `runFromParams` computes the startup alignment of the unbounded mode
exactly as the spec's table: `from == 1` is rejected; `2 ≤ from ≤ 63` yields
`run_from = 2`, `next_ledger = 2`; a checkpoint `from > 63` yields
`run_from = from − 1`, `next_ledger = from − 63`; a non-checkpoint `from > 63`
yields `run_from = prev_checkpoint(from) − 1` and
`next_ledger = prev_checkpoint(from) − 63` clamped to at least 2 (the clamp is
a no-op in the checkpoint case, where `from − 63 ≥ 64`); in every case the
returned hash is the hex previous-ledger hash of the archive header at
`run_from + 1` (sequences 3, `from` and `prev_checkpoint(from)`
respectively). -/
theorem runFromParams_matches_spec (a : Nat → Except String LedgerHeader)
    (f : Nat) :
    (runFromParams a 1 =
      .error "CaptiveCore is unable to start from ledger 1, start from ledger 2")
    ∧ (2 ≤ f → f ≤ 63 → ∀ hdr, a 3 = .ok hdr →
        runFromParams a f = .ok (2, hexEncodeToString hdr.previousLedgerHash, 2))
    ∧ (63 < f → IsCheckpoint f = true → ∀ hdr, a f = .ok hdr →
        runFromParams a f =
          .ok (f - 1, hexEncodeToString hdr.previousLedgerHash, f - 63))
    ∧ (63 < f → IsCheckpoint f = false → ∀ hdr, a (PrevCheckpoint f) = .ok hdr →
        runFromParams a f =
          .ok (PrevCheckpoint f - 1, hexEncodeToString hdr.previousLedgerHash,
            if PrevCheckpoint f - 63 < 2 then 2 else PrevCheckpoint f - 63)) := by
  refine ⟨by simp [runFromParams], ?_, ?_, ?_⟩
  · intro h2 h63 hdr ha
    have h1 : f ≠ 1 := by omega
    simp [runFromParams, h1, h63, ha]
  · intro h63 hc hdr ha
    have h1 : f ≠ 1 := by omega
    have hle : ¬ f ≤ 63 := by omega
    have h127 : 127 ≤ f := checkpoint_gt63_ge127 h63 hc
    have hcl : ¬ f - 63 < 2 := by omega
    simp [runFromParams, h1, hle, hc, hcl, ha]
  · intro h63 hc hdr ha
    have h1 : f ≠ 1 := by omega
    have hle : ¬ f ≤ 63 := by omega
    simp [runFromParams, h1, hle, hc, ha]

/-- Concrete archive for the C1 witness: every header carries the
previous-ledger hash `01010101…` used by `TestCaptiveRunFromParams`. -/
def archiveW : Nat → Except String LedgerHeader :=
  fun n => .ok ⟨n, 0, [1, 1, 1, 1] ++ List.replicate 28 0, []⟩

/-- Witness for C1 at `from = 128` (a non-checkpoint above 63, as in the
repository's own test vector `{128, 126, 127, 64}`). -/
theorem runFromParams_matches_spec_witness :
    runFromParams archiveW 128 =
      .ok (PrevCheckpoint 128 - 1,
        hexEncodeToString ([1, 1, 1, 1] ++ List.replicate 28 0),
        if PrevCheckpoint 128 - 63 < 2 then 2 else PrevCheckpoint 128 - 63) :=
  (runFromParams_matches_spec archiveW 128).2.2.2 (by decide) (by decide)
    ⟨127, 0, [1, 1, 1, 1] ++ List.replicate 28 0, []⟩ rfl

/-! ## C8 — offer compaction on `OffersProcessor.Commit` -/

/-- C8.  On a successful `OffersProcessor.Commit` at sequence `S` (the cache
flush succeeded), compaction is invoked iff `S > 100`, with cutoff `S − 100`;
afterwards the offers table holds no row with `deleted_at < S − 100`.  For
`S ≤ 100` no compaction is attempted and the table is untouched. -/
theorem offersCommit_compaction (S : Nat) (table : List OfferRow) :
    (offerCompactionWindow < S →
      OffersCommit none S table =
        .ok (some (S - offerCompactionWindow),
             CompactOffers table (S - offerCompactionWindow)) ∧
      ∀ r ∈ CompactOffers table (S - offerCompactionWindow),
        ∀ d, r.deletedAt = some d → ¬ d < S - offerCompactionWindow)
    ∧ (S ≤ offerCompactionWindow →
        OffersCommit none S table = .ok (none, table)) := by
  constructor
  · intro hS
    refine ⟨by simp [OffersCommit, hS], ?_⟩
    intro r hr d hd
    simp only [CompactOffers, List.mem_filter] at hr
    rcases hr with ⟨-, hkeep⟩
    rw [hd] at hkeep
    simp at hkeep
    omega
  · intro hS
    have : ¬ offerCompactionWindow < S := by omega
    simp [OffersCommit, this]

/-- Witness for C8 at `S = 150` over a three-row table: the row soft-deleted
at 9 is pruned, the row deleted at 50 and the live row survive. -/
theorem offersCommit_compaction_witness :
    OffersCommit none 150 [⟨1, some 9⟩, ⟨2, some 50⟩, ⟨3, none⟩] =
      .ok (some 50, [⟨2, some 50⟩, ⟨3, none⟩]) ∧
    OffersCommit none 100 [⟨1, some 9⟩] = .ok (none, [⟨1, some 9⟩]) :=
  ⟨by
    have h := (offersCommit_compaction 150
      [⟨1, some 9⟩, ⟨2, some 50⟩, ⟨3, none⟩]).1 (by decide)
    exact h.1.trans rfl,
   (offersCommit_compaction 100 [⟨1, some 9⟩]).2 (by decide)⟩

/-! ## C9 — protocol-version gating -/

/-- C9.  With the backend returning an existing ledger for the sequence,
`checkIfProtocolVersionSupported` fails exactly when the header's protocol
version exceeds `MaxSupportedProtocolVersion`; the error message then carries
the observed version, the maximum supported version, and the upgrade
instruction. -/
theorem checkIfProtocolVersionSupported_gating (env : IngestEnv) (s : Nat)
    (meta : LedgerCloseMeta)
    (hread : env.backendGetLedger s = .ok (true, meta)) :
    (meta.header.ledgerVersion ≤ MaxSupportedProtocolVersion →
      checkIfProtocolVersionSupported env s = .ok ())
    ∧ (MaxSupportedProtocolVersion < meta.header.ledgerVersion →
        checkIfProtocolVersionSupported env s =
          .error ("This Aurora version does not support protocol version " ++
            toString meta.header.ledgerVersion ++
            ". The latest supported protocol version is " ++
            toString MaxSupportedProtocolVersion ++
            ". Please upgrade to the latest Aurora version."))
    ∧ (∀ e, checkIfProtocolVersionSupported env s = .error e →
        MaxSupportedProtocolVersion < meta.header.ledgerVersion ∧
        ∃ s1 s2 s3, e = s1 ++ toString meta.header.ledgerVersion ++ s2 ++
            toString MaxSupportedProtocolVersion ++ s3 ∧
          s3 = ". Please upgrade to the latest Aurora version.") := by
  refine ⟨?_, ?_, ?_⟩
  · intro hle
    have : ¬ MaxSupportedProtocolVersion < meta.header.ledgerVersion := by omega
    simp [checkIfProtocolVersionSupported, hread, this]
  · intro hgt
    simp [checkIfProtocolVersionSupported, hread, hgt]
  · intro e he
    by_cases hgt : MaxSupportedProtocolVersion < meta.header.ledgerVersion
    · refine ⟨hgt, "This Aurora version does not support protocol version ",
        ". The latest supported protocol version is ",
        ". Please upgrade to the latest Aurora version.", ?_, rfl⟩
      simp [checkIfProtocolVersionSupported, hread, hgt] at he
      simp [← he, String.append_assoc]
    · exfalso
      simp [checkIfProtocolVersionSupported, hread, hgt] at he

/-- Witness for C9: a ledger at protocol version 200 is rejected with the full
operator-facing message; one at version 15 passes. -/
theorem checkIfProtocolVersionSupported_gating_witness :
    checkIfProtocolVersionSupported
      ⟨fun _ => .ok (true, ⟨⟨64, 200, [], []⟩⟩), fun _ => .ok [],
       fun _ => .ok [], []⟩ 64 =
      .error ("This Aurora version does not support protocol version 200. " ++
        "The latest supported protocol version is 15. " ++
        "Please upgrade to the latest Aurora version.") ∧
    checkIfProtocolVersionSupported
      ⟨fun _ => .ok (true, ⟨⟨64, 15, [], []⟩⟩), fun _ => .ok [],
       fun _ => .ok [], []⟩ 64 = .ok () :=
  ⟨((checkIfProtocolVersionSupported_gating
      ⟨fun _ => .ok (true, ⟨⟨64, 200, [], []⟩⟩), fun _ => .ok [],
       fun _ => .ok [], []⟩ 64 ⟨⟨64, 200, [], []⟩⟩ rfl).2.1
      (by decide)).trans rfl,
   (checkIfProtocolVersionSupported_gating
      ⟨fun _ => .ok (true, ⟨⟨64, 15, [], []⟩⟩), fun _ => .ok [],
       fun _ => .ok [], []⟩ 64 ⟨⟨64, 15, [], []⟩⟩ rfl).1 (by decide)⟩







/-! ## C2 — history-archive ingestion: genesis path and validation order -/

/-- C2.  `RunHistoryArchiveIngestion 1` ingests the synthetic genesis stream
for every environment (so neither the protocol-version check nor the
bucket-list validation is consulted); for `checkpoint > 1` the protocol check
runs first (its failure is surfaced even before the bucket-list hashes are
looked at), then the bucket-list validation — a bytewise hash mismatch aborts
with an error and an empty mutation, i.e. before any change reaches the
change group — and only when both pass is the archive snapshot streamed and
committed. -/
theorem runHistoryArchiveIngestion_checks (env : IngestEnv) (cp : Nat) :
    (RunHistoryArchiveIngestion env 1 = (.ok (), env.genesisChanges))
    ∧ (1 < cp → ∀ e, checkIfProtocolVersionSupported env cp = .error e →
        RunHistoryArchiveIngestion env cp =
          (.error ("Error while checking for supported protocol version: " ++ e),
           []))
    ∧ (1 < cp → checkIfProtocolVersionSupported env cp = .ok () →
        ∀ h meta, env.bucketListHash cp = .ok h →
          env.backendGetLedger cp = .ok (true, meta) →
          h ≠ meta.header.bucketListHash →
          RunHistoryArchiveIngestion env cp =
            (.error ("Error validating bucket list from HAS: " ++
              ("Bucket list hash of history archive and ledger header does not match: " ++
               hexEncodeToString h ++ " " ++
               hexEncodeToString meta.header.bucketListHash)), []))
    ∧ (1 < cp → checkIfProtocolVersionSupported env cp = .ok () →
        validateBucketList env cp = .ok () →
        ∀ changes, env.getState cp = .ok changes →
        RunHistoryArchiveIngestion env cp = (.ok (), changes)) := by
  refine ⟨by simp [RunHistoryArchiveIngestion], ?_, ?_, ?_⟩
  · intro hcp e hchk
    have h1 : cp ≠ 1 := by omega
    simp [RunHistoryArchiveIngestion, h1, hchk]
  · intro hcp hchk h meta hbl hread hne
    have h1 : cp ≠ 1 := by omega
    have hval : validateBucketList env cp =
        .error ("Bucket list hash of history archive and ledger header does not match: " ++
          hexEncodeToString h ++ " " ++
          hexEncodeToString meta.header.bucketListHash) := by
      simp [validateBucketList, hbl, hread, hne]
    simp [RunHistoryArchiveIngestion, h1, hchk, hval]
  · intro hcp hchk hval changes hgs
    have h1 : cp ≠ 1 := by omega
    simp [RunHistoryArchiveIngestion, h1, hchk, hval, hgs]

/-- Environment for the C2 witness: a checkpoint-63 archive whose bucket-list
hash `[1]` disagrees with the backend header's `[2]`. -/
def ingestEnvW : IngestEnv :=
  ⟨fun _ => .ok (true, ⟨⟨63, 10, [], [2]⟩⟩), fun _ => .ok [1],
   fun _ => .ok [⟨.account, none, some 7⟩], [⟨.account, none, some 1⟩]⟩

/-- Witness for C2: genesis ingestion streams the synthetic stream, and at
checkpoint 63 the mismatching bucket-list hashes abort with no mutation. -/
theorem runHistoryArchiveIngestion_checks_witness :
    RunHistoryArchiveIngestion ingestEnvW 1 =
      (.ok (), [⟨.account, none, some 1⟩]) ∧
    RunHistoryArchiveIngestion ingestEnvW 63 =
      (.error ("Error validating bucket list from HAS: " ++
        ("Bucket list hash of history archive and ledger header does not match: " ++
         hexEncodeToString [1] ++ " " ++ hexEncodeToString [2])), []) :=
  ⟨(runHistoryArchiveIngestion_checks ingestEnvW 63).1,
   (runHistoryArchiveIngestion_checks ingestEnvW 63).2.2.1 (by decide)
     rfl [1] ⟨⟨63, 10, [], [2]⟩⟩ rfl rfl (by decide)⟩

/-! ## C10 — `GetLatestLedgerSequence` on an open session -/

/-- C10.  On an open (non-closed) backend, `GetLatestLedgerSequence` reports
the session's `lastLedger` when the session is bounded, and
`nextLedger − 1` plus the number of results sitting in the read-ahead buffer
when it is unbounded — when all buffered results are ledgers (the producer has
reported no read error), that is the count of buffered, not-yet-consumed
ledgers, not just the last one delivered to the caller. -/
theorem getLatestLedgerSequence_open (c : CaptiveHcnetCore)
    (hopen : isClosed c = false) :
    (∀ l, c.lastLedger = some l → GetLatestLedgerSequence c = .ok l)
    ∧ (c.lastLedger = none →
        GetLatestLedgerSequence c = .ok (c.nextLedger - 1 + c.metaC.length))
    ∧ (c.lastLedger = none →
        (∀ mr ∈ c.metaC, ∃ m, mr = MetaResult.item m) →
        GetLatestLedgerSequence c =
          .ok (c.nextLedger - 1 +
            (c.metaC.filter (fun mr =>
              match mr with | .item _ => true | .failure _ => false)).length)) := by
  refine ⟨?_, ?_, ?_⟩
  · intro l hl
    simp [GetLatestLedgerSequence, hopen, hl]
  · intro hl
    simp [GetLatestLedgerSequence, hopen, hl]
  · intro hl hall
    have hfilter : c.metaC.filter (fun mr =>
        match mr with | .item _ => true | .failure _ => false) = c.metaC := by
      apply List.filter_eq_self.2
      intro mr hmr
      obtain ⟨m, rfl⟩ := hall mr hmr
      rfl
    rw [hfilter]
    simp [GetLatestLedgerSequence, hopen, hl]

/-- The open unbounded state of `TestGetLatestLedgerSequence` right after
`PrepareRange(UnboundedRange(64))` delivered ledger 64: ledgers 65 and 66 are
buffered. -/
def openUnboundedW : CaptiveHcnetCore :=
  ⟨65, none, some ⟨⟨64, 0, [], []⟩⟩, false,
   [.item ⟨⟨65, 0, [], []⟩⟩, .item ⟨⟨66, 0, [], []⟩⟩], true, some ⟨none⟩, "foo"⟩

/-- Witness for C10, mirroring `TestGetLatestLedgerSequence`: with ledger 64
delivered and 65, 66 buffered, the latest available sequence is 66. -/
theorem getLatestLedgerSequence_open_witness :
    GetLatestLedgerSequence openUnboundedW = .ok 66 :=
  ((getLatestLedgerSequence_open openUnboundedW rfl).2.1 rfl).trans rfl

/-! ## C3 — behaviour after `Close` -/

/-- The post-close backend state of `TestCaptiveGetLedger` (bounded range
`[65, 66]` fully consumed): closed, with ledger 66 still cached. -/
def closedCachedW : CaptiveHcnetCore :=
  ⟨0, none, some ⟨⟨66, 0, [], []⟩⟩, true, [], false, none, ""⟩

/-- Counterexample to C3 as stated: `closedCachedW` is literally the result of
calling `Close` on the live session that has just returned ledger 66, yet on
this closed backend `GetLedger 66` succeeds from the cache instead of
returning the session-closed error (exactly the behaviour the repository's
own test `TestCaptiveGetLedger` asserts: "we should be able to call last
ledger even after get ledger is closed"). -/
theorem getLedger_after_close_counterexample :
    (Close ⟨67, none, some ⟨⟨66, 0, [], []⟩⟩, true, [], true, some ⟨none⟩,
      ""⟩).2 = closedCachedW ∧
    isClosed closedCachedW = true ∧
    GetLedger closedCachedW 66 = (.found ⟨⟨66, 0, [], []⟩⟩, closedCachedW) :=
  ⟨rfl, rfl, rfl⟩

/-- C3 amended.  After `Close`, a `GetLedger` for any sequence other than the
cached last-returned one fails with "session is closed, call PrepareRange
first" (the cached sequence is still served from `cachedMeta`); `Close`
leaves the backend closed, and a second `Close` succeeds and leaves the state
unchanged. -/
theorem close_semantics (c : CaptiveHcnetCore) (s : Nat) :
    (isClosed c = true →
      (∀ m, c.cachedMeta = some m → s ≠ m.header.ledgerSeq) →
      GetLedger c s = (.failure "session is closed, call PrepareRange first", c))
    ∧ isClosed (Close c).2 = true
    ∧ Close ((Close c).2) = (none, (Close c).2) := by
  refine ⟨?_, Close_isClosed c, ?_⟩
  · intro hcl hmiss
    unfold GetLedger
    rcases hm : c.cachedMeta with _ | m
    · simp [getLedgerMain, hcl]
    · have : s ≠ m.header.ledgerSeq := hmiss m hm
      simp [this, getLedgerMain, hcl]
  · unfold Close
    cases hs : c.shutdown <;> rcases hr : c.runner with _ | r <;> simp [hs, hr]

/-- Witness for C3 (amended): on the concrete closed state, a request for a
sequence different from the cached one is rejected, and re-closing is a
no-op. -/
theorem close_semantics_witness :
    GetLedger closedCachedW 5 =
      (.failure "session is closed, call PrepareRange first", closedCachedW) ∧
    Close ((Close closedCachedW).2) = (none, (Close closedCachedW).2) :=
  ⟨(close_semantics closedCachedW 5).1 rfl (by decide),
   (close_semantics closedCachedW 5).2.2⟩

/-! ## C4 — `PrepareRange` short-circuit and `IsPrepared` -/

/-- A live bounded session: streaming is at ledger 64 and the session's last
ledger is 100. -/
def boundedSessionW : CaptiveHcnetCore :=
  ⟨64, some 100, none, true, [], true, some ⟨none⟩, ""⟩

/-- An arbitrary concrete environment (never consulted on the short-circuit
path). -/
def captiveEnvW : CaptiveEnv :=
  ⟨.ok 200, fun n => .ok ⟨n, 0, [], []⟩, fun _ _ => none, fun _ _ => none,
   [], none⟩

/-- Counterexample to C4 as stated: against the bounded session whose last
ledger is 100, the bounded request `[64, 200]` — not a subset, since
`to = 200 > 100` — still short-circuits: `PrepareRange` returns success with
the state untouched and without opening a subprocess, because `IsPrepared`
never compares the requested `to` with the session's `lastLedger`. -/
theorem prepareRange_shortCircuit_counterexample :
    PrepareRange captiveEnvW boundedSessionW (BoundedRange 64 200) =
      (.success boundedSessionW, false) ∧
    boundedSessionW.lastLedger = some 100 ∧
    (BoundedRange 64 200).toSeq = 200 :=
  ⟨rfl, rfl, rfl⟩

/-- C4 amended.  `PrepareRange` short-circuits (success, current session kept,
no subprocess opened) exactly when `IsPrepared` holds, and for a bounded
request against an existing bounded session `IsPrepared` holds iff the
session is open, `next_ledger ≤ from` and `next_ledger ≤ last_ledger` — the
requested `to` is never compared against the session's `last_ledger`, so the
short-circuit does not require the prepared range to be a superset of the
request. -/
theorem prepareRange_shortCircuit (env : CaptiveEnv) (c : CaptiveHcnetCore)
    (r : LedgerRange) :
    (IsPrepared c r = true → PrepareRange env c r = (.success c, false))
    ∧ (IsPrepared c r = false → (PrepareRange env c r).2 = true)
    ∧ (∀ l, c.lastLedger = some l → r.bounded = true →
        (IsPrepared c r = true ↔
          c.nextLedger ≠ 0 ∧ c.nextLedger ≤ r.fromSeq ∧ c.nextLedger ≤ l)) := by
  refine ⟨?_, ?_, ?_⟩
  · intro hp
    simp [PrepareRange, hp]
  · intro hp
    simp [PrepareRange, hp]
  · intro l hl hb
    simp only [IsPrepared, hl, hb, if_true]
    split
    · simp_all
    · simp_all

/-- Witness for C4 (amended): a genuinely-subset bounded request `[70, 90]`
against the same session short-circuits. -/
theorem prepareRange_shortCircuit_witness :
    PrepareRange captiveEnvW boundedSessionW (BoundedRange 70 90) =
      (.success boundedSessionW, false) :=
  (prepareRange_shortCircuit captiveEnvW boundedSessionW
    (BoundedRange 70 90)).1 (by decide)

/-! ## C5 — sequence gap in the stream is fatal -/

/-- C5.  If the next item pulled from the read-ahead buffer carries a ledger
whose sequence differs from `nextLedger`, `GetLedger` returns the error
`unexpected ledger (expected=<nextLedger> actual=<seq>)` and closes the
backend, so the session is unusable without re-preparing. -/
theorem getLedger_gap (c : CaptiveHcnetCore) (s : Nat) (m : LedgerCloseMeta)
    (rest : List MetaResult)
    (hmiss : ∀ m0, c.cachedMeta = some m0 → s ≠ m0.header.ledgerSeq)
    (hopen : isClosed c = false)
    (hle : c.nextLedger ≤ s)
    (hbuf : c.metaC = .item m :: rest)
    (hne : m.header.ledgerSeq ≠ c.nextLedger) :
    ∃ c', GetLedger c s =
      (.failure ("unexpected ledger (expected=" ++ toString c.nextLedger ++
        " actual=" ++ toString m.header.ledgerSeq ++ ")"), c') ∧
      isClosed c' = true := by
  have hGL : GetLedger c s = getLedgerMain c s := by
    unfold GetLedger
    rcases hm : c.cachedMeta with _ | m0
    · rfl
    · dsimp only
      rw [if_neg (hmiss m0 hm)]
  refine ⟨(Close { c with metaC := rest }).2, ?_, Close_isClosed _⟩
  rw [hGL]
  unfold getLedgerMain
  rw [hopen]
  have hns : ¬ s < c.nextLedger := by omega
  rw [if_neg (by simp), if_neg hns]
  unfold getLedgerLoop
  rw [hbuf, getLedgerRecv, if_neg hne]

/-- The state of `TestCaptiveGetLedger_NextLedgerIsDifferentToLedgerFromBuffer`
at the moment of the gap: streaming expects 66 but the buffer's next frame is
ledger 68. -/
def gapStateW : CaptiveHcnetCore :=
  ⟨66, some 66, some ⟨⟨65, 0, [], []⟩⟩, true, [.item ⟨⟨68, 0, [], []⟩⟩], true,
   some ⟨none⟩, ""⟩

/-- Witness for C5, reproducing the spec's own scenario: `get_ledger(66)` on a
stream whose next frame is 68 fails with
`unexpected ledger (expected=66 actual=68)`. -/
theorem getLedger_gap_witness :
    ∃ c', GetLedger gapStateW 66 =
      (.failure ("unexpected ledger (expected=" ++ toString 66 ++
        " actual=" ++ toString 68 ++ ")"), c') ∧
      isClosed c' = true :=
  getLedger_gap gapStateW 66 ⟨⟨68, 0, [], []⟩⟩ []
    (by intro m0 hm0; cases hm0; decide) rfl (by decide) rfl (by decide)

/-! ## C6 — re-reading the last-returned sequence is idempotent -/

/-- C6.  If `GetLedger c s` returned a meta, calling `GetLedger` again with
the same sequence on the resulting backend returns the very same meta and
leaves the state untouched: nothing is consumed from the read-ahead buffer
and `nextLedger` does not advance (the second call is served from
`cachedMeta`). -/
theorem getLedger_reread (c c' : CaptiveHcnetCore) (s : Nat)
    (m : LedgerCloseMeta) (h : GetLedger c s = (.found m, c')) :
    GetLedger c' s = (.found m, c') := by
  have hkey : c'.cachedMeta = some m ∧ m.header.ledgerSeq = s := by
    unfold GetLedger at h
    rcases hm : c.cachedMeta with _ | m0 <;> rw [hm] at h <;> dsimp only at h
    · have hf := getLedgerMain_found c c' s m h
      exact ⟨hf.2.1, hf.1⟩
    · by_cases he : s = m0.header.ledgerSeq
      · rw [if_pos he] at h
        simp only [GetLedgerResult.found.injEq, Prod.mk.injEq] at h
        obtain ⟨hm0, hc⟩ := h
        subst hm0
        refine ⟨?_, he.symm⟩
        rw [← hc, hm]
      · rw [if_neg he] at h
        have hf := getLedgerMain_found c c' s m h
        exact ⟨hf.2.1, hf.1⟩
  obtain ⟨hcache, hseq⟩ := hkey
  unfold GetLedger
  rw [hcache]
  dsimp only
  rw [if_pos hseq.symm]

/-- The session of `TestCaptiveGetLedger` right before reading ledger 64. -/
def rereadBeforeW : CaptiveHcnetCore :=
  ⟨64, some 66, none, true, [.item ⟨⟨64, 0, [], []⟩⟩], true, some ⟨none⟩, ""⟩

/-- The same session after ledger 64 was returned: position advanced to 65,
the frame consumed, ledger 64 cached. -/
def rereadAfterW : CaptiveHcnetCore :=
  ⟨65, some 66, some ⟨⟨64, 0, [], []⟩⟩, true, [], true, some ⟨none⟩, ""⟩

/-- Witness for C6, mirroring `TestCaptiveGetLedger`: the second
`GetLedger 64` returns the cached meta and the identical state. -/
theorem getLedger_reread_witness :
    GetLedger rereadAfterW 64 = (.found ⟨⟨64, 0, [], []⟩⟩, rereadAfterW) :=
  getLedger_reread rereadBeforeW rereadAfterW 64 ⟨⟨64, 0, [], []⟩⟩ rfl

/-! ## C7 — bounded ranges auto-close after the last ledger -/

/-- C7.  For a bounded session whose last ledger is `b`, once `GetLedger b`
has returned the final in-range ledger (a real read, not a cache hit), the
backend is closed and `GetLatestLedgerSequence` reports an error instead of a
sequence. -/
theorem getLedger_last_closes (c c' : CaptiveHcnetCore) (b : Nat)
    (m : LedgerCloseMeta)
    (hlast : c.lastLedger = some b)
    (hmiss : ∀ m0, c.cachedMeta = some m0 → b ≠ m0.header.ledgerSeq)
    (h : GetLedger c b = (.found m, c')) :
    isClosed c' = true ∧
    GetLatestLedgerSequence c' =
      .error "hcnet-core must be opened to return latest available sequence" := by
  have hmain : getLedgerMain c b = (.found m, c') := by
    unfold GetLedger at h
    rcases hm : c.cachedMeta with _ | m0 <;> rw [hm] at h <;> dsimp only at h
    · exact h
    · rw [if_neg (hmiss m0 hm)] at h
      exact h
  have hf := getLedgerMain_found c c' b m hmain
  rw [hlast] at hf
  have hnl : c'.nextLedger = 0 := by
    have := hf.2.2
    simp only [if_pos rfl] at this
    exact this.1
  have hcl : isClosed c' = true := by simp [isClosed, hnl]
  exact ⟨hcl, by simp [GetLatestLedgerSequence, hcl]⟩

/-- The bounded session of `TestCaptiveGetLedger` at its last ledger: the
range ends at 66 and the buffer holds frame 66. -/
def lastLedgerStateW : CaptiveHcnetCore :=
  ⟨66, some 66, some ⟨⟨65, 0, [], []⟩⟩, true, [.item ⟨⟨66, 0, [], []⟩⟩], true,
   some ⟨none⟩, ""⟩

/-- Witness for C7: after `GetLedger 66` delivers the last in-range ledger,
the backend is closed and the latest-sequence query errors. -/
theorem getLedger_last_closes_witness :
    isClosed (⟨0, none, some ⟨⟨66, 0, [], []⟩⟩, true, [], false, none,
      ""⟩ : CaptiveHcnetCore) = true ∧
    GetLatestLedgerSequence (⟨0, none, some ⟨⟨66, 0, [], []⟩⟩, true, [], false,
      none, ""⟩ : CaptiveHcnetCore) =
      .error "hcnet-core must be opened to return latest available sequence" :=
  getLedger_last_closes lastLedgerStateW
    ⟨0, none, some ⟨⟨66, 0, [], []⟩⟩, true, [], false, none, ""⟩ 66
    ⟨⟨66, 0, [], []⟩⟩ rfl (by intro m0 hm0; cases hm0; decide) rfl
